import Mathlib

/-!
Verification development for the `frappe_powertools.orm.query` module.

The Python module implements a Django-style query layer:
* `Q` — a boolean filter tree (leaves are key/value mappings, internal
  nodes carry a connector `AND`/`OR` and a `negated` flag),
* `_parse_lookup` — splits a filter key such as `score__gt` into a field
  name and a lookup operator,
* `ReadQuery._build_condition` — lowers one parsed lookup into a backend
  condition, validating operator/value shapes,
* `ReadQuery._q_to_criterion` — recursively compiles a `Q` tree into a
  single condition,
* `ReadQuery._build_frappe_query` / `ReadQuery.first` — assemble the
  final query (where-clauses, ordering, limit) from the accumulated
  descriptor state.

Every definition below is a direct translation of the corresponding
Python source; theorems at the end of the file settle the specification
claims against these definitions.
-/

namespace FrappePowertools

/-- A Python runtime value, restricted to the shapes the query layer
inspects: strings, ints, booleans, `None`, lists and tuples. -/
inductive PyVal where
  | vStr (s : String)
  | vInt (n : Int)
  | vBool (b : Bool)
  | vNone
  | vList (xs : List PyVal)
  | vTuple (xs : List PyVal)

mutual

def PyVal.decEq : (a b : PyVal) → Decidable (a = b)
  | .vStr a, .vStr b =>
    if h : a = b then .isTrue (h ▸ rfl)
    else .isFalse (fun hh => h (by injection hh))
  | .vInt a, .vInt b =>
    if h : a = b then .isTrue (h ▸ rfl)
    else .isFalse (fun hh => h (by injection hh))
  | .vBool a, .vBool b =>
    if h : a = b then .isTrue (h ▸ rfl)
    else .isFalse (fun hh => h (by injection hh))
  | .vNone, .vNone => .isTrue rfl
  | .vList xs, .vList ys =>
    match PyVal.decEqList xs ys with
    | .isTrue h => .isTrue (h ▸ rfl)
    | .isFalse h => .isFalse (fun hh => h (by injection hh))
  | .vTuple xs, .vTuple ys =>
    match PyVal.decEqList xs ys with
    | .isTrue h => .isTrue (h ▸ rfl)
    | .isFalse h => .isFalse (fun hh => h (by injection hh))
  | .vStr _, .vInt _ => .isFalse (fun hh => nomatch hh)
  | .vStr _, .vBool _ => .isFalse (fun hh => nomatch hh)
  | .vStr _, .vNone => .isFalse (fun hh => nomatch hh)
  | .vStr _, .vList _ => .isFalse (fun hh => nomatch hh)
  | .vStr _, .vTuple _ => .isFalse (fun hh => nomatch hh)
  | .vInt _, .vStr _ => .isFalse (fun hh => nomatch hh)
  | .vInt _, .vBool _ => .isFalse (fun hh => nomatch hh)
  | .vInt _, .vNone => .isFalse (fun hh => nomatch hh)
  | .vInt _, .vList _ => .isFalse (fun hh => nomatch hh)
  | .vInt _, .vTuple _ => .isFalse (fun hh => nomatch hh)
  | .vBool _, .vStr _ => .isFalse (fun hh => nomatch hh)
  | .vBool _, .vInt _ => .isFalse (fun hh => nomatch hh)
  | .vBool _, .vNone => .isFalse (fun hh => nomatch hh)
  | .vBool _, .vList _ => .isFalse (fun hh => nomatch hh)
  | .vBool _, .vTuple _ => .isFalse (fun hh => nomatch hh)
  | .vNone, .vStr _ => .isFalse (fun hh => nomatch hh)
  | .vNone, .vInt _ => .isFalse (fun hh => nomatch hh)
  | .vNone, .vBool _ => .isFalse (fun hh => nomatch hh)
  | .vNone, .vList _ => .isFalse (fun hh => nomatch hh)
  | .vNone, .vTuple _ => .isFalse (fun hh => nomatch hh)
  | .vList _, .vStr _ => .isFalse (fun hh => nomatch hh)
  | .vList _, .vInt _ => .isFalse (fun hh => nomatch hh)
  | .vList _, .vBool _ => .isFalse (fun hh => nomatch hh)
  | .vList _, .vNone => .isFalse (fun hh => nomatch hh)
  | .vList _, .vTuple _ => .isFalse (fun hh => nomatch hh)
  | .vTuple _, .vStr _ => .isFalse (fun hh => nomatch hh)
  | .vTuple _, .vInt _ => .isFalse (fun hh => nomatch hh)
  | .vTuple _, .vBool _ => .isFalse (fun hh => nomatch hh)
  | .vTuple _, .vNone => .isFalse (fun hh => nomatch hh)
  | .vTuple _, .vList _ => .isFalse (fun hh => nomatch hh)

def PyVal.decEqList : (xs ys : List PyVal) → Decidable (xs = ys)
  | [], [] => .isTrue rfl
  | [], _ :: _ => .isFalse (fun hh => nomatch hh)
  | _ :: _, [] => .isFalse (fun hh => nomatch hh)
  | x :: xs, y :: ys =>
    match PyVal.decEq x y, PyVal.decEqList xs ys with
    | .isTrue h1, .isTrue h2 => .isTrue (by rw [h1, h2])
    | .isFalse h1, _ => .isFalse (fun hh => h1 (by injection hh))
    | .isTrue _, .isFalse h2 => .isFalse (fun hh => h2 (by injection hh))

end

instance : DecidableEq PyVal := PyVal.decEq

/-- The connector of a `Q` node (`Literal["AND", "OR"]` in the source). -/
inductive Connector where
  | and
  | or
deriving DecidableEq, Repr

mutual
/-- The `Q` class: `children` (leaf mappings or sub-`Q`s), a `connector`
and a `negated` flag. -/
inductive Q where
  | mk (children : List QChild) (connector : Connector) (negated : Bool)

/-- A child of a `Q` node: either a leaf `dict[str, Any]` (modelled as an
insertion-ordered association list, matching Python dict order) or a
nested `Q`. -/
inductive QChild where
  | leaf (kvs : List (String × PyVal))
  | sub (q : Q)
end

def Q.children : Q → List QChild
  | .mk cs _ _ => cs

def Q.connector : Q → Connector
  | .mk _ c _ => c

def Q.negated : Q → Bool
  | .mk _ _ n => n

/-- `Q.__init__`: kwargs become a single leaf child when non-empty;
connector `AND`, not negated. -/
def Q.ofKwargs (kvs : List (String × PyVal)) : Q :=
  .mk (if kvs.isEmpty then [] else [.leaf kvs]) .and false

/-- `Q._combine`: a fresh parent node whose children are exactly the two
operands, with the requested connector and `negated = False`. -/
def Q.combine (self other : Q) (connector : Connector) : Q :=
  .mk [.sub self, .sub other] connector false

/-- `Q.__and__`. -/
def Q.andQ (self other : Q) : Q := Q.combine self other .and

/-- `Q.__or__`. -/
def Q.orQ (self other : Q) : Q := Q.combine self other .or

/-- `Q.__invert__`: a fresh node wrapping `self` as sole child, connector
`AND`, and `negated = not self.negated`. -/
def Q.invert (self : Q) : Q :=
  .mk [.sub self] .and (!self.negated)

/-- The `ParsedLookup` dataclass. -/
structure ParsedLookup where
  fieldName : String
  lookup : String
  value : PyVal
deriving DecidableEq

/-- Split a character list at the RIGHTMOST occurrence of the
two-character separator `__`, returning the prefix and the suffix
(Python `key.rsplit("__", 1)`); `none` when `__` does not occur. -/
def rsplitSep : List Char → Option (List Char × List Char)
  | [] => none
  | c :: rest =>
    match rsplitSep rest with
    | some (pre, suf) => some (c :: pre, suf)
    | none =>
      match c, rest with
      | '_', '_' :: tail => some ([], tail)
      | _, _ => none

/-- `_parse_lookup`: if the key contains `__`, split once from the right;
otherwise the field is the whole key and the lookup is `exact`. -/
def parseLookup (key : String) (value : PyVal) : ParsedLookup :=
  match rsplitSep key.toList with
  | some (pre, suf) => ⟨String.mk pre, String.mk suf, value⟩
  | none => ⟨key, "exact", value⟩

/-- A PyPika condition expression, as produced by `_build_condition` and
combined by `_q_to_criterion` (`&`, `|`, `~` on conditions). -/
inductive Cond where
  | eq (f : String) (v : PyVal)
  | gt (f : String) (v : PyVal)
  | gte (f : String) (v : PyVal)
  | lt (f : String) (v : PyVal)
  | lte (f : String) (v : PyVal)
  | between (f : String) (lo hi : PyVal)
  | isin (f : String) (vs : List PyVal)
  | isNull (f : String)
  | notNull (f : String)
  | like (f : String) (pat : String)
  | eqCol (f g : String)
  | neCol (f g : String)
  | and (a b : Cond)
  | or (a b : Cond)
  | not (a : Cond)
deriving DecidableEq

/-- The validation errors (`ValueError`) the query layer can raise while
compiling filters, each carrying the data its message interpolates. -/
inductive QErr where
  | emptyQ
  | noValidConditions
  | rangeBadValue
  | inIsString (fieldName : String)
  | inNotIterable
  | notInIsString
  | notInNotIterable
  | isnullNotBool
  | blankNotBool
  | containsNotString
  | startswithNotString
  | endswithNotString
  | unsupportedLookup (lookup fieldName : String)
deriving DecidableEq, Repr

/-- Python `hasattr(value, "__iter__")` over the modelled value shapes. -/
def PyVal.hasIter : PyVal → Bool
  | .vStr _ => true
  | .vList _ => true
  | .vTuple _ => true
  | _ => false

/-- Python `list(value)` for the iterable shapes (strings iterate over
one-character strings). -/
def PyVal.toPyList : PyVal → List PyVal
  | .vStr s => s.toList.map (fun c => .vStr (String.mk [c]))
  | .vList xs => xs
  | .vTuple xs => xs
  | _ => []

/-- `ReadQuery._build_condition`, parametrised by the schema information
it consults: `isBoolField f` holds when `f` is declared in
`schema.model_fields` with a `bool` annotation. -/
def buildCondition (isBoolField : String → Bool) (parsed : ParsedLookup) :
    Except QErr Cond :=
  let f := parsed.fieldName
  let lookup := parsed.lookup
  -- Check-field coercion: a Python bool filtering a bool-typed field is
  -- turned into 0/1, but only for the `exact` lookup.
  let value :=
    match parsed.value with
    | .vBool b =>
      if isBoolField f && lookup == "exact" then .vInt (if b then 1 else 0)
      else parsed.value
    | v => v
  if lookup == "exact" then .ok (.eq f value)
  else if lookup == "gt" then .ok (.gt f value)
  else if lookup == "gte" then .ok (.gte f value)
  else if lookup == "lt" then .ok (.lt f value)
  else if lookup == "lte" then .ok (.lte f value)
  else if lookup == "range" then
    match value with
    | .vList [lo, hi] => .ok (.between f lo hi)
    | .vTuple [lo, hi] => .ok (.between f lo hi)
    | _ => .error .rangeBadValue
  else if lookup == "in" then
    match value with
    | .vStr _ => .error (.inIsString f)
    | v =>
      if v.hasIter then
        let valueList := v.toPyList
        if valueList.isEmpty then .ok (.neCol f f)
        else .ok (.isin f valueList)
      else .error .inNotIterable
  else if lookup == "not_in" then
    match value with
    | .vStr _ => .error .notInIsString
    | v =>
      if v.hasIter then
        let valueList := v.toPyList
        if valueList.isEmpty then .ok (.eqCol f f)
        else .ok (.not (.isin f valueList))
      else .error .notInNotIterable
  else if lookup == "isnull" then
    match value with
    | .vBool true => .ok (.isNull f)
    | .vBool false => .ok (.notNull f)
    | _ => .error .isnullNotBool
  else if lookup == "blank" then
    match value with
    | .vBool true => .ok (.or (.isNull f) (.eq f (.vStr "")))
    | .vBool false => .ok (.not (.or (.isNull f) (.eq f (.vStr ""))))
    | _ => .error .blankNotBool
  else if lookup == "contains" then
    match value with
    | .vStr s => .ok (.like f ("%" ++ s ++ "%"))
    | _ => .error .containsNotString
  else if lookup == "startswith" then
    match value with
    | .vStr s => .ok (.like f (s ++ "%"))
    | _ => .error .startswithNotString
  else if lookup == "endswith" then
    match value with
    | .vStr s => .ok (.like f ("%" ++ s))
    | _ => .error .endswithNotString
  else .error (.unsupportedLookup lookup f)

/-- Conditions built for one leaf mapping, in key order: each key/value
pair is parsed with `_parse_lookup` and lowered with `_build_condition`;
the first failure propagates, as the Python exception would. -/
def condsOfLeaf (isBoolField : String → Bool) :
    List (String × PyVal) → Except QErr (List Cond)
  | [] => .ok []
  | (key, value) :: rest => do
    let c ← buildCondition isBoolField (parseLookup key value)
    let cs ← condsOfLeaf isBoolField rest
    .ok (c :: cs)

mutual

/-- Size measure on `Q` trees, used for termination of the compiler. -/
def Q.size : Q → Nat
  | .mk cs _ _ => 1 + sizeChildren cs

def sizeChildren : List QChild → Nat
  | [] => 0
  | c :: rest => sizeChild c + sizeChildren rest

def sizeChild : QChild → Nat
  | .leaf _ => 1
  | .sub q => 1 + Q.size q

end

/-- `combined & condition` / `combined | condition`, chosen by the
node's connector. -/
def Cond.combineWith (conn : Connector) (a b : Cond) : Cond :=
  match conn with
  | .and => .and a b
  | .or => .or a b

mutual

/-- `ReadQuery._q_to_criterion`: raise on empty children; unwrap the
one-level `negated node wrapping a single negated sub-node` pattern;
otherwise lower every child, fold the results with the node's connector
and negate the fold if the node is negated. -/
def qToCriterion (isBoolField : String → Bool) (q : Q) : Except QErr Cond :=
  match q with
  | .mk children conn neg =>
    if children.isEmpty then .error .emptyQ
    else
      match children, neg with
      | [QChild.sub childQ], true =>
        if childQ.negated then
          qToCriterion isBoolField (.mk childQ.children childQ.connector false)
        else
          compileNode isBoolField [QChild.sub childQ] conn true
      | cs, ng => compileNode isBoolField cs conn ng
termination_by 3 * Q.size q + 2
decreasing_by
  all_goals simp_wf
  all_goals try rcases childQ with ⟨ccs, ccn, cng⟩
  all_goals simp [Q.size, sizeChildren, sizeChild, Q.children, Q.connector, Q.negated]
  all_goals omega

/-- The main body of `_q_to_criterion` after the guard and the
double-negation special case: build `child_conditions`, raise when none
were produced, fold with the connector, then apply the node's negation. -/
def compileNode (isBoolField : String → Bool) (children : List QChild)
    (conn : Connector) (neg : Bool) : Except QErr Cond :=
  match condsOfChildren isBoolField children with
  | .error e => .error e
  | .ok [] => .error .noValidConditions
  | .ok (c :: rest) =>
    let combined := rest.foldl (Cond.combineWith conn) c
    .ok (if neg then .not combined else combined)
termination_by 3 * sizeChildren children + 1
decreasing_by
  all_goals simp_wf

/-- The `child_conditions` list of `_q_to_criterion`: leaf keys each
contribute one condition (appended in order), sub-`Q`s contribute their
recursively compiled condition. -/
def condsOfChildren (isBoolField : String → Bool) :
    List QChild → Except QErr (List Cond)
  | [] => .ok []
  | .leaf kvs :: rest =>
    match condsOfLeaf isBoolField kvs with
    | .error e => .error e
    | .ok cs =>
      match condsOfChildren isBoolField rest with
      | .error e => .error e
      | .ok more => .ok (cs ++ more)
  | .sub q :: rest =>
    match qToCriterion isBoolField q with
    | .error e => .error e
    | .ok c =>
      match condsOfChildren isBoolField rest with
      | .error e => .error e
      | .ok more => .ok (c :: more)
termination_by cs => 3 * sizeChildren cs
decreasing_by
  all_goals simp_wf
  all_goals simp [Q.size, sizeChildren, sizeChild]
  all_goals omega

end

mutual

/-- Every node of the tree (the root included) has non-empty children. -/
def noEmptyNodes : Q → Bool
  | .mk cs _ _ => !cs.isEmpty && noEmptyNodesChildren cs

def noEmptyNodesChildren : List QChild → Bool
  | [] => true
  | .leaf _ :: rest => noEmptyNodesChildren rest
  | .sub q :: rest => noEmptyNodes q && noEmptyNodesChildren rest

end

/-- Evaluate a condition against a row (`row` gives every column's
value). The backend's ordering comparison `ltv` and `LIKE` matcher
`likev` are abstract parameters; no theorem below depends on their
behaviour. -/
def evalCond (ltv : PyVal → PyVal → Bool) (likev : PyVal → String → Bool)
    (row : String → PyVal) : Cond → Bool
  | .eq f v => decide (row f = v)
  | .gt f v => ltv v (row f)
  | .gte f v => !ltv (row f) v
  | .lt f v => ltv (row f) v
  | .lte f v => !ltv v (row f)
  | .between f lo hi => !ltv (row f) lo && !ltv hi (row f)
  | .isin f vs => decide (row f ∈ vs)
  | .isNull f => decide (row f = .vNone)
  | .notNull f => !decide (row f = .vNone)
  | .like f pat => likev (row f) pat
  | .eqCol f g => decide (row f = row g)
  | .neCol f g => !decide (row f = row g)
  | .and a b => evalCond ltv likev row a && evalCond ltv likev row b
  | .or a b => evalCond ltv likev row a || evalCond ltv likev row b
  | .not a => !evalCond ltv likev row a

/-- The accumulated state of a `ReadQuery` descriptor (the `schema`
field is modelled separately as the `isBoolField` parameter of the
condition builder). -/
structure ReadQueryState where
  filters : List (List (String × PyVal))
  exclude_filters : List (List (String × PyVal))
  filter_qs : List Q
  exclude_qs : List Q
  order_by_fields : List String
  limit_value : Option Int
  prefetch_fields : List String
  select_related_fields : List String

/-- The observable query assembled by `_build_frappe_query`: the
`where(...)` conditions in attachment order, the `orderby`
specifications (field name, descending?) and the limit. -/
structure BuiltQuery where
  whereClauses : List Cond
  orderBySpecs : List (String × Bool)
  limitVal : Option Int

/-- `_build_frappe_query` combines a non-empty `filter_qs` /
`exclude_qs` list with `&` left-to-right. -/
def combineAllQs (q : Q) (rest : List Q) : Q := rest.foldl Q.andQ q

/-- Legacy dict filters: for each stored kwargs dict, one `where`
condition per key, in order. -/
def legacyFilterConds (isBoolField : String → Bool) :
    List (List (String × PyVal)) → Except QErr (List Cond)
  | [] => .ok []
  | d :: rest => do
    let cs ← condsOfLeaf isBoolField d
    let more ← legacyFilterConds isBoolField rest
    .ok (cs ++ more)

/-- Legacy dict excludes: for each stored kwargs dict, one `where`
condition per key, each negated individually (`query.where(~condition)`),
in order. -/
def legacyExcludeConds (isBoolField : String → Bool) :
    List (List (String × PyVal)) → Except QErr (List Cond)
  | [] => .ok []
  | d :: rest => do
    let cs ← condsOfLeaf isBoolField d
    let more ← legacyExcludeConds isBoolField rest
    .ok (cs.map Cond.not ++ more)

/-- `ReadQuery._build_frappe_query`, restricted to the observables the
claims are about: where-clauses (Q filters, legacy filters, negated Q
excludes, negated legacy excludes, in that order), `orderby` specs and
the limit. -/
def buildFrappeQuery (isBoolField : String → Bool) (rq : ReadQueryState) :
    Except QErr BuiltQuery := do
  let filterQWheres ←
    match rq.filter_qs with
    | [] => pure []
    | q :: rest => do
      let c ← qToCriterion isBoolField (combineAllQs q rest)
      pure [c]
  let legacyWheres ← legacyFilterConds isBoolField rq.filters
  let excludeQWheres ←
    match rq.exclude_qs with
    | [] => pure []
    | q :: rest => do
      let c ← qToCriterion isBoolField (combineAllQs q rest)
      pure [Cond.not c]
  let legacyExcludeWheres ← legacyExcludeConds isBoolField rq.exclude_filters
  let obSpecs := rq.order_by_fields.map fun s =>
    if s.startsWith "-" then (s.drop 1, true) else (s, false)
  .ok ⟨filterQWheres ++ legacyWheres ++ excludeQWheres ++ legacyExcludeWheres,
       obSpecs, rq.limit_value⟩

/-- A query's where-clauses are conjoined: a row matches when every
attached `where` condition evaluates to true. -/
def evalWheres (ltv : PyVal → PyVal → Bool) (likev : PyVal → String → Bool)
    (row : String → PyVal) (cs : List Cond) : Bool :=
  cs.all (evalCond ltv likev row)

/-- The state mutation performed by `ReadQuery.first`: it assigns
`self.limit_value = 1` on the descriptor itself before delegating to
`all()`. -/
def firstState (rq : ReadQueryState) : ReadQueryState :=
  { rq with limit_value := some 1 }

/-- Did the computation raise (`Except.error`)? -/
def isError {ε α : Type} : Except ε α → Bool
  | .error _ => true
  | .ok _ => false

/-- Python `isinstance(value, str)`. -/
def PyVal.isStrB : PyVal → Bool
  | .vStr _ => true
  | _ => false

/-- Python `isinstance(value, bool)`. -/
def PyVal.isBoolB : PyVal → Bool
  | .vBool _ => true
  | _ => false

/-- Python `isinstance(value, (tuple, list)) and len(value) == 2`. -/
def PyVal.isPair2 : PyVal → Bool
  | .vList [_, _] => true
  | .vTuple [_, _] => true
  | _ => false

/-- The thirteen lookups `_build_condition` supports. -/
def supportedLookups : List String :=
  ["exact", "gt", "gte", "lt", "lte", "range", "in", "not_in", "isnull",
   "blank", "contains", "startswith", "endswith"]

/-- C1: the spec claims `~(~Q(a=1))` compiles to the same condition as
`Q(a=1)`. The code violates this: `Q.__invert__` sets
`negated = not self.negated` on the fresh wrapper, so `~(~x)` carries
`negated=False` above a `negated=True` child — the compiler's
double-negation pattern (both flags true) never fires, and the child's
negation survives. Compiling `~(~Q(a=1))` yields `NOT (a == 1)`, which
differs syntactically and semantically from compiling `Q(a=1)`. The
code contradicts its own `_q_to_criterion` docstring ("Double negation
is optimized: ~(~Q) simplifies to Q"). -/
theorem c1_double_negation_divergence :
    qToCriterion (fun _ => false) ((Q.ofKwargs [("a", .vInt 1)]).invert.invert)
      = .ok (.not (.eq "a" (.vInt 1)))
    ∧ qToCriterion (fun _ => false) (Q.ofKwargs [("a", .vInt 1)])
      = .ok (.eq "a" (.vInt 1))
    ∧ evalCond (fun _ _ => false) (fun _ _ => false) (fun _ => .vInt 1)
        (.not (.eq "a" (.vInt 1)))
      ≠ evalCond (fun _ _ => false) (fun _ _ => false) (fun _ => .vInt 1)
        (.eq "a" (.vInt 1)) := by
  refine ⟨?_, ?_, ?_⟩
  · simp [qToCriterion, compileNode, condsOfChildren, condsOfLeaf, buildCondition,
      parseLookup, rsplitSep, Q.ofKwargs, Q.invert, Q.negated, Q.children,
      Q.connector, Bind.bind, Except.bind]
  · simp [qToCriterion, compileNode, condsOfChildren, condsOfLeaf, buildCondition,
      parseLookup, rsplitSep, Q.ofKwargs, Bind.bind, Except.bind]
  · simp [evalCond]

/-- C2 counterexample: the claim says `~x` always has `negated=True`
regardless of `x.negated`. For `x = ~Q(a=1)` (which has `negated=True`),
`~x` has `negated=False`. -/
theorem c2_invert_negated_counterexample :
    ((Q.ofKwargs [("a", .vInt 1)]).invert).negated = true
    ∧ ((Q.ofKwargs [("a", .vInt 1)]).invert.invert).negated = false :=
  ⟨rfl, rfl⟩

/-- C2 amended: `~x` produces a fresh node whose sole child is `x`,
whose connector is `AND`, and whose negated flag is `not x.negated`
(hence `True` exactly when `x` itself is not negated); combinators never
inspect or simplify beyond this flag arithmetic. -/
theorem c2_invert_fresh_wrapper :
    ∀ x : Q, (x.invert).children = [QChild.sub x]
      ∧ (x.invert).connector = .and
      ∧ (x.invert).negated = !x.negated :=
  fun _ => ⟨rfl, rfl, rfl⟩

/-- C3: `a & b` and `a | b` allocate a new parent node whose children
are exactly `[a, b]` (the operand objects themselves, not copies — so
the operands, being embedded unchanged, are not mutated), with connector
`AND` resp. `OR` and `negated = False`. In this pure embedding
`Q._combine` is a function of its arguments, which is exactly the
no-mutation guarantee of the source (it only reads the operands). -/
theorem c3_combine_fresh_parent :
    ∀ a b : Q,
      (a.andQ b).children = [QChild.sub a, QChild.sub b]
      ∧ (a.andQ b).connector = .and
      ∧ (a.andQ b).negated = false
      ∧ (a.orQ b).children = [QChild.sub a, QChild.sub b]
      ∧ (a.orQ b).connector = .or
      ∧ (a.orQ b).negated = false :=
  fun _ _ => ⟨rfl, rfl, rfl, rfl, rfl, rfl⟩

/-- C4 counterexample: the claim says a multi-key leaf's conditions are
AND-ed regardless of the enclosing node's connector. For a hand-built
node with connector `OR` whose sole child is the leaf `{a: 1, b: 2}`,
the compiler folds the two per-key conditions with the node's own
connector, producing `(a == 1) OR (b == 2)` — not the claimed
`(a == 1) AND (b == 2)`; the two differ on the row `a=1, b=3`. -/
theorem c4_or_node_multikey_leaf_counterexample :
    qToCriterion (fun _ => false)
        (Q.mk [.leaf [("a", .vInt 1), ("b", .vInt 2)]] .or false)
      = .ok (.or (.eq "a" (.vInt 1)) (.eq "b" (.vInt 2)))
    ∧ qToCriterion (fun _ => false)
        (Q.mk [.leaf [("a", .vInt 1), ("b", .vInt 2)]] .or false)
      ≠ .ok (.and (.eq "a" (.vInt 1)) (.eq "b" (.vInt 2)))
    ∧ evalCond (fun _ _ => false) (fun _ _ => false)
        (fun f => if f = "a" then .vInt 1 else .vInt 3)
        (.or (.eq "a" (.vInt 1)) (.eq "b" (.vInt 2))) = true
    ∧ evalCond (fun _ _ => false) (fun _ _ => false)
        (fun f => if f = "a" then .vInt 1 else .vInt 3)
        (.and (.eq "a" (.vInt 1)) (.eq "b" (.vInt 2))) = false := by
  refine ⟨?_, ?_, ?_, ?_⟩
  · simp [qToCriterion, compileNode, condsOfChildren, condsOfLeaf, buildCondition,
      parseLookup, rsplitSep, Cond.combineWith, Bind.bind, Except.bind]
  · simp [qToCriterion, compileNode, condsOfChildren, condsOfLeaf, buildCondition,
      parseLookup, rsplitSep, Cond.combineWith, Bind.bind, Except.bind]
  · simp [evalCond]
  · simp [evalCond]

/-- C4 amended: when the compiler encounters a leaf mapping, each key's
condition is appended to the node's condition list individually, and the
whole list is folded with the enclosing node's OWN connector — not
unconditionally with AND. Multiple keys of one leaf are therefore AND-ed
exactly when the node's connector is AND; in particular `Q(**kwargs)`
places its leaf in a connector-`AND` node, so API-built multi-key leaves
are AND-ed. -/
theorem c4_leaf_keys_fold_with_node_connector :
    ∀ (sch : String → Bool) (conn : Connector) (kvs : List (String × PyVal))
      (c : Cond) (cs : List Cond),
      condsOfLeaf sch kvs = .ok (c :: cs) →
      qToCriterion sch (Q.mk [.leaf kvs] conn false)
        = .ok (cs.foldl (Cond.combineWith conn) c)
      ∧ qToCriterion sch (Q.ofKwargs kvs)
        = .ok (cs.foldl (Cond.combineWith .and) c) := by
  intro sch conn kvs c cs h
  have hkvs : ¬ kvs.isEmpty := by
    intro he
    rw [List.isEmpty_iff] at he
    subst he
    simp [condsOfLeaf] at h
  constructor
  · simp [qToCriterion, compileNode, condsOfChildren, h]
  · simp [Q.ofKwargs, hkvs, qToCriterion, compileNode, condsOfChildren, h]

/-- C4 amended, witness: the OR-connector instance from the
counterexample, obtained through the amended theorem. -/
theorem c4_leaf_keys_fold_with_node_connector_witness :
    qToCriterion (fun _ => false)
        (Q.mk [.leaf [("a", .vInt 1), ("b", .vInt 2)]] .or false)
      = .ok (.or (.eq "a" (.vInt 1)) (.eq "b" (.vInt 2))) :=
  (c4_leaf_keys_fold_with_node_connector (fun _ => false) .or
    [("a", .vInt 1), ("b", .vInt 2)]
    (.eq "a" (.vInt 1)) [.eq "b" (.vInt 2)]
    (by simp [condsOfLeaf, buildCondition, parseLookup, rsplitSep,
          Bind.bind, Except.bind])).1

/-- C5: for every field, `in` on an empty iterable compiles to the
condition `column != column` (false on every row of the two-valued row
semantics) and `not_in` on an empty iterable compiles to
`column == column` (true on every row); non-empty iterables compile to
`column IN (values)` resp. `NOT (column IN (values))`. -/
theorem c5_empty_in_lookups :
    ∀ (sch : String → Bool) (f : String),
      buildCondition sch ⟨f, "in", .vList []⟩ = .ok (.neCol f f)
    ∧ buildCondition sch ⟨f, "in", .vTuple []⟩ = .ok (.neCol f f)
    ∧ buildCondition sch ⟨f, "not_in", .vList []⟩ = .ok (.eqCol f f)
    ∧ buildCondition sch ⟨f, "not_in", .vTuple []⟩ = .ok (.eqCol f f)
    ∧ (∀ ltv likev row, evalCond ltv likev row (.neCol f f) = false)
    ∧ (∀ ltv likev row, evalCond ltv likev row (.eqCol f f) = true)
    ∧ (∀ xs, xs ≠ [] →
        buildCondition sch ⟨f, "in", .vList xs⟩ = .ok (.isin f xs))
    ∧ (∀ xs, xs ≠ [] →
        buildCondition sch ⟨f, "in", .vTuple xs⟩ = .ok (.isin f xs))
    ∧ (∀ xs, xs ≠ [] →
        buildCondition sch ⟨f, "not_in", .vList xs⟩ = .ok (.not (.isin f xs)))
    ∧ (∀ xs, xs ≠ [] →
        buildCondition sch ⟨f, "not_in", .vTuple xs⟩
          = .ok (.not (.isin f xs))) := by
  intro sch f
  refine ⟨?_, ?_, ?_, ?_, ?_, ?_, ?_, ?_, ?_, ?_⟩
  · simp [buildCondition, PyVal.hasIter, PyVal.toPyList]
  · simp [buildCondition, PyVal.hasIter, PyVal.toPyList]
  · simp [buildCondition, PyVal.hasIter, PyVal.toPyList]
  · simp [buildCondition, PyVal.hasIter, PyVal.toPyList]
  · intro ltv likev row; simp [evalCond]
  · intro ltv likev row; simp [evalCond]
  · intro xs h; simp [buildCondition, PyVal.hasIter, PyVal.toPyList, h]
  · intro xs h; simp [buildCondition, PyVal.hasIter, PyVal.toPyList, h]
  · intro xs h; simp [buildCondition, PyVal.hasIter, PyVal.toPyList, h]
  · intro xs h; simp [buildCondition, PyVal.hasIter, PyVal.toPyList, h]

/-- C5 witness: the `status` field with the empty list and the singleton
list `["Open"]`, plus the always-false evaluation, all obtained from the
theorem. -/
theorem c5_empty_in_lookups_witness :
    buildCondition (fun _ => false) ⟨"status", "in", .vList []⟩
      = .ok (.neCol "status" "status")
    ∧ buildCondition (fun _ => false) ⟨"status", "in", .vList [.vStr "Open"]⟩
      = .ok (.isin "status" [.vStr "Open"])
    ∧ evalCond (fun _ _ => false) (fun _ _ => false) (fun _ => .vNone)
        (.neCol "status" "status") = false
    ∧ evalCond (fun _ _ => false) (fun _ _ => false) (fun _ => .vNone)
        (.eqCol "status" "status") = true :=
  ⟨(c5_empty_in_lookups (fun _ => false) "status").1,
   (c5_empty_in_lookups (fun _ => false) "status").2.2.2.2.2.2.1
     [.vStr "Open"] (by simp),
   (c5_empty_in_lookups (fun _ => false) "status").2.2.2.2.1 _ _ _,
   (c5_empty_in_lookups (fun _ => false) "status").2.2.2.2.2.1 _ _ _⟩

theorem isError_buildCondition_exact (sch : String → Bool) (f : String)
    (v : PyVal) : isError (buildCondition sch ⟨f, "exact", v⟩) = false := by
  rcases v with s | n | b | _ | xs | xs <;> simp [buildCondition, isError]

theorem isError_buildCondition_gt (sch : String → Bool) (f : String)
    (v : PyVal) : isError (buildCondition sch ⟨f, "gt", v⟩) = false := by
  rcases v with s | n | b | _ | xs | xs <;> simp [buildCondition, isError]

theorem isError_buildCondition_gte (sch : String → Bool) (f : String)
    (v : PyVal) : isError (buildCondition sch ⟨f, "gte", v⟩) = false := by
  rcases v with s | n | b | _ | xs | xs <;> simp [buildCondition, isError]

theorem isError_buildCondition_lt (sch : String → Bool) (f : String)
    (v : PyVal) : isError (buildCondition sch ⟨f, "lt", v⟩) = false := by
  rcases v with s | n | b | _ | xs | xs <;> simp [buildCondition, isError]

theorem isError_buildCondition_lte (sch : String → Bool) (f : String)
    (v : PyVal) : isError (buildCondition sch ⟨f, "lte", v⟩) = false := by
  rcases v with s | n | b | _ | xs | xs <;> simp [buildCondition, isError]

theorem isError_buildCondition_range (sch : String → Bool) (f : String)
    (v : PyVal) :
    isError (buildCondition sch ⟨f, "range", v⟩) = !v.isPair2 := by
  rcases v with s | n | b | _ | xs | xs
  · simp [buildCondition, isError, PyVal.isPair2]
  · simp [buildCondition, isError, PyVal.isPair2]
  · simp [buildCondition, isError, PyVal.isPair2]
  · simp [buildCondition, isError, PyVal.isPair2]
  · rcases xs with _ | ⟨a, _ | ⟨b, _ | ⟨c, rest⟩⟩⟩ <;>
      simp [buildCondition, isError, PyVal.isPair2]
  · rcases xs with _ | ⟨a, _ | ⟨b, _ | ⟨c, rest⟩⟩⟩ <;>
      simp [buildCondition, isError, PyVal.isPair2]

theorem isError_buildCondition_in (sch : String → Bool) (f : String)
    (v : PyVal) :
    isError (buildCondition sch ⟨f, "in", v⟩)
      = (v.isStrB || !v.hasIter) := by
  rcases v with s | n | b | _ | xs | xs <;>
    simp [buildCondition, isError, PyVal.isStrB, PyVal.hasIter,
      PyVal.toPyList] <;>
    rcases xs with _ | ⟨a, rest⟩ <;> simp [isError]

theorem isError_buildCondition_not_in (sch : String → Bool) (f : String)
    (v : PyVal) :
    isError (buildCondition sch ⟨f, "not_in", v⟩)
      = (v.isStrB || !v.hasIter) := by
  rcases v with s | n | b | _ | xs | xs <;>
    simp [buildCondition, isError, PyVal.isStrB, PyVal.hasIter,
      PyVal.toPyList] <;>
    rcases xs with _ | ⟨a, rest⟩ <;> simp [isError]

theorem isError_buildCondition_isnull (sch : String → Bool) (f : String)
    (v : PyVal) :
    isError (buildCondition sch ⟨f, "isnull", v⟩) = !v.isBoolB := by
  rcases v with s | n | b | _ | xs | xs
  · simp [buildCondition, isError, PyVal.isBoolB]
  · simp [buildCondition, isError, PyVal.isBoolB]
  · rcases b with _ | _ <;> simp [buildCondition, isError, PyVal.isBoolB]
  · simp [buildCondition, isError, PyVal.isBoolB]
  · simp [buildCondition, isError, PyVal.isBoolB]
  · simp [buildCondition, isError, PyVal.isBoolB]

theorem isError_buildCondition_blank (sch : String → Bool) (f : String)
    (v : PyVal) :
    isError (buildCondition sch ⟨f, "blank", v⟩) = !v.isBoolB := by
  rcases v with s | n | b | _ | xs | xs
  · simp [buildCondition, isError, PyVal.isBoolB]
  · simp [buildCondition, isError, PyVal.isBoolB]
  · rcases b with _ | _ <;> simp [buildCondition, isError, PyVal.isBoolB]
  · simp [buildCondition, isError, PyVal.isBoolB]
  · simp [buildCondition, isError, PyVal.isBoolB]
  · simp [buildCondition, isError, PyVal.isBoolB]

theorem isError_buildCondition_contains (sch : String → Bool) (f : String)
    (v : PyVal) :
    isError (buildCondition sch ⟨f, "contains", v⟩) = !v.isStrB := by
  rcases v with s | n | b | _ | xs | xs <;>
    simp [buildCondition, isError, PyVal.isStrB]

theorem isError_buildCondition_startswith (sch : String → Bool) (f : String)
    (v : PyVal) :
    isError (buildCondition sch ⟨f, "startswith", v⟩) = !v.isStrB := by
  rcases v with s | n | b | _ | xs | xs <;>
    simp [buildCondition, isError, PyVal.isStrB]

theorem isError_buildCondition_endswith (sch : String → Bool) (f : String)
    (v : PyVal) :
    isError (buildCondition sch ⟨f, "endswith", v⟩) = !v.isStrB := by
  rcases v with s | n | b | _ | xs | xs <;>
    simp [buildCondition, isError, PyVal.isStrB]


/-- C6: `_build_condition` raises a validation error exactly when
`range` gets a value that is not a 2-element list/tuple, `in`/`not_in`
gets a string or a non-iterable, `isnull`/`blank` gets a non-boolean,
`contains`/`startswith`/`endswith` gets a non-string, or the lookup name
is not one of the thirteen supported ones — and in that last case the
error names the offending operator and field. -/
theorem c6_build_condition_validation_errors :
    ∀ (sch : String → Bool) (f lk : String) (v : PyVal),
      (isError (buildCondition sch ⟨f, lk, v⟩) = true ↔
        (lk = "range" ∧ v.isPair2 = false)
        ∨ ((lk = "in" ∨ lk = "not_in") ∧ (v.isStrB = true ∨ v.hasIter = false))
        ∨ ((lk = "isnull" ∨ lk = "blank") ∧ v.isBoolB = false)
        ∨ ((lk = "contains" ∨ lk = "startswith" ∨ lk = "endswith")
            ∧ v.isStrB = false)
        ∨ lk ∉ supportedLookups)
      ∧ (lk ∉ supportedLookups →
          buildCondition sch ⟨f, lk, v⟩ = .error (.unsupportedLookup lk f)) := by
  intro sch f lk v
  by_cases h1 : lk = "exact"
  · subst h1
    refine ⟨?_, ?_⟩
    · rw [isError_buildCondition_exact]; simp [supportedLookups]
    · intro hns; exact absurd (by simp [supportedLookups]) hns
  by_cases h2 : lk = "gt"
  · subst h2
    refine ⟨?_, ?_⟩
    · rw [isError_buildCondition_gt]; simp [supportedLookups]
    · intro hns; exact absurd (by simp [supportedLookups]) hns
  by_cases h3 : lk = "gte"
  · subst h3
    refine ⟨?_, ?_⟩
    · rw [isError_buildCondition_gte]; simp [supportedLookups]
    · intro hns; exact absurd (by simp [supportedLookups]) hns
  by_cases h4 : lk = "lt"
  · subst h4
    refine ⟨?_, ?_⟩
    · rw [isError_buildCondition_lt]; simp [supportedLookups]
    · intro hns; exact absurd (by simp [supportedLookups]) hns
  by_cases h5 : lk = "lte"
  · subst h5
    refine ⟨?_, ?_⟩
    · rw [isError_buildCondition_lte]; simp [supportedLookups]
    · intro hns; exact absurd (by simp [supportedLookups]) hns
  by_cases h6 : lk = "range"
  · subst h6
    refine ⟨?_, ?_⟩
    · rw [isError_buildCondition_range]; simp [supportedLookups]
    · intro hns; exact absurd (by simp [supportedLookups]) hns
  by_cases h7 : lk = "in"
  · subst h7
    refine ⟨?_, ?_⟩
    · rw [isError_buildCondition_in]; simp [supportedLookups]
    · intro hns; exact absurd (by simp [supportedLookups]) hns
  by_cases h8 : lk = "not_in"
  · subst h8
    refine ⟨?_, ?_⟩
    · rw [isError_buildCondition_not_in]; simp [supportedLookups]
    · intro hns; exact absurd (by simp [supportedLookups]) hns
  by_cases h9 : lk = "isnull"
  · subst h9
    refine ⟨?_, ?_⟩
    · rw [isError_buildCondition_isnull]; simp [supportedLookups]
    · intro hns; exact absurd (by simp [supportedLookups]) hns
  by_cases h10 : lk = "blank"
  · subst h10
    refine ⟨?_, ?_⟩
    · rw [isError_buildCondition_blank]; simp [supportedLookups]
    · intro hns; exact absurd (by simp [supportedLookups]) hns
  by_cases h11 : lk = "contains"
  · subst h11
    refine ⟨?_, ?_⟩
    · rw [isError_buildCondition_contains]; simp [supportedLookups]
    · intro hns; exact absurd (by simp [supportedLookups]) hns
  by_cases h12 : lk = "startswith"
  · subst h12
    refine ⟨?_, ?_⟩
    · rw [isError_buildCondition_startswith]; simp [supportedLookups]
    · intro hns; exact absurd (by simp [supportedLookups]) hns
  by_cases h13 : lk = "endswith"
  · subst h13
    refine ⟨?_, ?_⟩
    · rw [isError_buildCondition_endswith]; simp [supportedLookups]
    · intro hns; exact absurd (by simp [supportedLookups]) hns
  have hns : lk ∉ supportedLookups := by
    simp [supportedLookups, h1, h2, h3, h4, h5, h6, h7, h8, h9, h10, h11, h12, h13]
  have e1 : (lk == "exact") = false := by simp [h1]
  have e2 : (lk == "gt") = false := by simp [h2]
  have e3 : (lk == "gte") = false := by simp [h3]
  have e4 : (lk == "lt") = false := by simp [h4]
  have e5 : (lk == "lte") = false := by simp [h5]
  have e6 : (lk == "range") = false := by simp [h6]
  have e7 : (lk == "in") = false := by simp [h7]
  have e8 : (lk == "not_in") = false := by simp [h8]
  have e9 : (lk == "isnull") = false := by simp [h9]
  have e10 : (lk == "blank") = false := by simp [h10]
  have e11 : (lk == "contains") = false := by simp [h11]
  have e12 : (lk == "startswith") = false := by simp [h12]
  have e13 : (lk == "endswith") = false := by simp [h13]
  have hbc : buildCondition sch ⟨f, lk, v⟩
      = .error (.unsupportedLookup lk f) := by
    simp [buildCondition, e1, e2, e3, e4, e5, e6, e7, e8, e9, e10, e11, e12, e13]
  refine ⟨?_, fun _ => hbc⟩
  rw [hbc]
  simp [isError, hns]

/-- C6 witness: an unrecognised operator on a concrete field yields the
error carrying that operator and field, and a malformed `range` value is
reported as an error, both through the theorem. -/
theorem c6_build_condition_validation_errors_witness :
    buildCondition (fun _ => false) ⟨"owner", "frobnicate", .vNone⟩
      = .error (.unsupportedLookup "frobnicate" "owner")
    ∧ isError (buildCondition (fun _ => false) ⟨"age", "range", .vInt 3⟩)
      = true :=
  ⟨(c6_build_condition_validation_errors (fun _ => false) "owner"
      "frobnicate" .vNone).2 (by simp [supportedLookups]),
   (c6_build_condition_validation_errors (fun _ => false) "age"
      "range" (.vInt 3)).1.mpr (Or.inl ⟨rfl, rfl⟩)⟩


theorem buildCondition_ne_emptyQ (sch : String → Bool) (p : ParsedLookup) :
    buildCondition sch p ≠ .error .emptyQ := by
  obtain ⟨f, lk, v⟩ := p
  intro h
  by_cases h1 : lk = "exact"
  · subst h1; simp [buildCondition] at h
  by_cases h2 : lk = "gt"
  · subst h2; simp [buildCondition] at h
  by_cases h3 : lk = "gte"
  · subst h3; simp [buildCondition] at h
  by_cases h4 : lk = "lt"
  · subst h4; simp [buildCondition] at h
  by_cases h5 : lk = "lte"
  · subst h5; simp [buildCondition] at h
  by_cases h6 : lk = "range"
  · subst h6
    rcases v with s | n | b | _ | xs | xs
    · simp [buildCondition] at h
    · simp [buildCondition] at h
    · simp [buildCondition] at h
    · simp [buildCondition] at h
    · rcases xs with _ | ⟨a, _ | ⟨b2, _ | ⟨c, rest⟩⟩⟩ <;> simp [buildCondition] at h
    · rcases xs with _ | ⟨a, _ | ⟨b2, _ | ⟨c, rest⟩⟩⟩ <;> simp [buildCondition] at h
  by_cases h7 : lk = "in"
  · subst h7
    rcases v with s | n | b | _ | xs | xs
    · simp [buildCondition] at h
    · simp [buildCondition, PyVal.hasIter] at h
    · simp [buildCondition, PyVal.hasIter] at h
    · simp [buildCondition, PyVal.hasIter] at h
    · rcases xs with _ | ⟨a, rest⟩ <;>
        simp [buildCondition, PyVal.hasIter, PyVal.toPyList] at h
    · rcases xs with _ | ⟨a, rest⟩ <;>
        simp [buildCondition, PyVal.hasIter, PyVal.toPyList] at h
  by_cases h8 : lk = "not_in"
  · subst h8
    rcases v with s | n | b | _ | xs | xs
    · simp [buildCondition] at h
    · simp [buildCondition, PyVal.hasIter] at h
    · simp [buildCondition, PyVal.hasIter] at h
    · simp [buildCondition, PyVal.hasIter] at h
    · rcases xs with _ | ⟨a, rest⟩ <;>
        simp [buildCondition, PyVal.hasIter, PyVal.toPyList] at h
    · rcases xs with _ | ⟨a, rest⟩ <;>
        simp [buildCondition, PyVal.hasIter, PyVal.toPyList] at h
  by_cases h9 : lk = "isnull"
  · subst h9
    rcases v with s | n | b | _ | xs | xs
    · simp [buildCondition] at h
    · simp [buildCondition] at h
    · rcases b with _ | _ <;> simp [buildCondition] at h
    · simp [buildCondition] at h
    · simp [buildCondition] at h
    · simp [buildCondition] at h
  by_cases h10 : lk = "blank"
  · subst h10
    rcases v with s | n | b | _ | xs | xs
    · simp [buildCondition] at h
    · simp [buildCondition] at h
    · rcases b with _ | _ <;> simp [buildCondition] at h
    · simp [buildCondition] at h
    · simp [buildCondition] at h
    · simp [buildCondition] at h
  by_cases h11 : lk = "contains"
  · subst h11; rcases v with s | n | b | _ | xs | xs <;> simp [buildCondition] at h
  by_cases h12 : lk = "startswith"
  · subst h12; rcases v with s | n | b | _ | xs | xs <;> simp [buildCondition] at h
  by_cases h13 : lk = "endswith"
  · subst h13; rcases v with s | n | b | _ | xs | xs <;> simp [buildCondition] at h
  simp [buildCondition, h1, h2, h3, h4, h5, h6, h7, h8, h9, h10, h11, h12, h13] at h

theorem condsOfLeaf_ne_emptyQ (sch : String → Bool) :
    ∀ kvs : List (String × PyVal), condsOfLeaf sch kvs ≠ .error .emptyQ := by
  intro kvs
  induction kvs with
  | nil => simp [condsOfLeaf]
  | cons kv rest ih =>
    rcases hb : buildCondition sch (parseLookup kv.1 kv.2) with e | c
    · have he : e ≠ .emptyQ := fun heq =>
        buildCondition_ne_emptyQ sch _ (heq ▸ hb)
      simp [condsOfLeaf, Bind.bind, Except.bind, hb, he]
    · rcases hr : condsOfLeaf sch rest with e2 | cs2
      · have he2 : e2 ≠ .emptyQ := fun heq => ih (heq ▸ hr)
        simp [condsOfLeaf, Bind.bind, Except.bind, hb, hr, he2]
      · simp [condsOfLeaf, Bind.bind, Except.bind, hb, hr]

theorem compileNode_ne_emptyQ (sch : String → Bool) (cs : List QChild)
    (conn : Connector) (neg : Bool)
    (h : condsOfChildren sch cs ≠ .error .emptyQ) :
    compileNode sch cs conn neg ≠ .error .emptyQ := by
  rcases hc : condsOfChildren sch cs with e | ls
  · have he : e ≠ .emptyQ := fun heq => h (heq ▸ hc)
    simp [compileNode, hc, he]
  · rcases ls with _ | ⟨c, rest⟩ <;> simp [compileNode, hc]

theorem qToCriterion_ne_emptyQ_aux (sch : String → Bool) :
    ∀ n : Nat,
      (∀ q : Q, Q.size q ≤ n → noEmptyNodes q = true →
        qToCriterion sch q ≠ .error .emptyQ)
      ∧ (∀ cs : List QChild, sizeChildren cs ≤ n →
          noEmptyNodesChildren cs = true →
          condsOfChildren sch cs ≠ .error .emptyQ) := by
  intro n
  induction n using Nat.strong_induction_on with
  | _ n ih =>
    constructor
    · intro q hsz hne
      obtain ⟨cs, conn, neg⟩ := q
      simp only [noEmptyNodes, Bool.and_eq_true, Bool.not_eq_true'] at hne
      obtain ⟨hcs, hnec⟩ := hne
      have hq : Q.size (Q.mk cs conn neg) = 1 + sizeChildren cs := by
        simp [Q.size]
      have hlt : sizeChildren cs < n := by rw [hq] at hsz; omega
      intro h
      rcases cs with _ | ⟨c0, cs'⟩
      · simp at hcs
      rcases c0 with kvs | childQ
      · simp only [qToCriterion, hcs, Bool.false_eq_true, if_false] at h
        exact compileNode_ne_emptyQ sch _ conn neg
          ((ih _ hlt).2 _ le_rfl hnec) h
      rcases cs' with _ | ⟨c1, cs''⟩
      · rcases neg with _ | _
        · simp only [qToCriterion, hcs, Bool.false_eq_true, if_false] at h
          exact compileNode_ne_emptyQ sch _ conn false
            ((ih _ hlt).2 _ le_rfl hnec) h
        · obtain ⟨ccs, ccn, cng⟩ := childQ
          rcases hn : cng with _ | _
          · subst hn
            simp only [qToCriterion, hcs, Bool.false_eq_true, if_false,
              Q.negated, Bool.false_eq_true, if_false] at h
            exact compileNode_ne_emptyQ sch _ conn true
              ((ih _ hlt).2 _ le_rfl hnec) h
          · subst hn
            simp only [qToCriterion, hcs, Bool.false_eq_true, if_false,
              Q.negated, if_true, Q.children, Q.connector] at h
            have hsub : noEmptyNodes (Q.mk ccs ccn true) = true := by
              simpa [noEmptyNodesChildren] using hnec
            have hsub' : noEmptyNodes (Q.mk ccs ccn false) = true := by
              simpa [noEmptyNodes] using hsub
            have hszc : Q.size (Q.mk ccs ccn false) < n := by
              have h1 : sizeChildren [QChild.sub (Q.mk ccs ccn true)]
                  = 1 + Q.size (Q.mk ccs ccn true) + 0 := by
                simp [sizeChildren, sizeChild]
              have h2 : Q.size (Q.mk ccs ccn true) = 1 + sizeChildren ccs := by
                simp [Q.size]
              have h3 : Q.size (Q.mk ccs ccn false) = 1 + sizeChildren ccs := by
                simp [Q.size]
              rw [h1, h2] at hlt
              omega
            exact (ih _ hszc).1 _ le_rfl hsub' (by simp only [qToCriterion]; exact h)
      · simp only [qToCriterion, hcs, Bool.false_eq_true, if_false] at h
        exact compileNode_ne_emptyQ sch _ conn neg
          ((ih _ hlt).2 _ le_rfl hnec) h
    · intro cs hsz hnec
      rcases cs with _ | ⟨c0, rest⟩
      · simp [condsOfChildren]
      rcases c0 with kvs | q0
      · simp only [noEmptyNodesChildren] at hnec
        have hrest : sizeChildren rest < n := by
          have : sizeChildren (QChild.leaf kvs :: rest)
              = 1 + sizeChildren rest := by simp [sizeChildren, sizeChild]
          omega
        intro h
        rcases hl : condsOfLeaf sch kvs with e | cs2
        · have he : e ≠ .emptyQ := fun heq =>
            condsOfLeaf_ne_emptyQ sch kvs (heq ▸ hl)
          simp [condsOfChildren, hl, he] at h
        · rcases hr : condsOfChildren sch rest with e2 | more
          · have he2 : e2 ≠ .emptyQ := fun heq =>
              (ih _ hrest).2 rest le_rfl hnec (heq ▸ hr)
            simp [condsOfChildren, hl, hr, he2] at h
          · simp [condsOfChildren, hl, hr] at h
      · simp only [noEmptyNodesChildren, Bool.and_eq_true] at hnec
        obtain ⟨hq0, hrestne⟩ := hnec
        have hszq : Q.size q0 < n := by
          have : sizeChildren (QChild.sub q0 :: rest)
              = (1 + Q.size q0) + sizeChildren rest := by
            simp [sizeChildren, sizeChild]
          omega
        have hrest : sizeChildren rest < n := by
          have : sizeChildren (QChild.sub q0 :: rest)
              = (1 + Q.size q0) + sizeChildren rest := by
            simp [sizeChildren, sizeChild]
          omega
        intro h
        rcases hc : qToCriterion sch q0 with e | c
        · have he : e ≠ .emptyQ := fun heq =>
            (ih _ hszq).1 q0 le_rfl hq0 (heq ▸ hc)
          simp [condsOfChildren, hc, he] at h
        · rcases hr : condsOfChildren sch rest with e2 | more
          · have he2 : e2 ≠ .emptyQ := fun heq =>
              (ih _ hrest).2 rest le_rfl hrestne (heq ▸ hr)
            simp [condsOfChildren, hc, hr, he2] at h
          · simp [condsOfChildren, hc, hr] at h

/-- C7: compiling a `Q` node with an empty children list always raises
the structural `ValueError` ("Cannot convert empty Q object to
criterion"), whatever the connector, the negated flag or the schema; and
for a tree in which every node has non-empty children, that error is
never produced. -/
theorem c7_empty_children_error :
    (∀ (sch : String → Bool) (conn : Connector) (neg : Bool),
        qToCriterion sch (Q.mk [] conn neg) = .error .emptyQ)
    ∧ (∀ (sch : String → Bool) (q : Q), noEmptyNodes q = true →
        qToCriterion sch q ≠ .error .emptyQ) := by
  constructor
  · intro sch conn neg
    simp [qToCriterion]
  · intro sch q hq
    exact (qToCriterion_ne_emptyQ_aux sch (Q.size q)).1 q le_rfl hq

/-- C7 witness: the bare `Q()` raises, while the leaf `Q(a=1)` (all of
whose nodes have children) does not hit the empty-children error. -/
theorem c7_empty_children_error_witness :
    qToCriterion (fun _ => false) (Q.mk [] .and false) = .error .emptyQ
    ∧ qToCriterion (fun _ => false) (Q.ofKwargs [("a", .vInt 1)])
      ≠ .error .emptyQ :=
  ⟨c7_empty_children_error.1 (fun _ => false) .and false,
   c7_empty_children_error.2 (fun _ => false) _
     (by simp [Q.ofKwargs, noEmptyNodes, noEmptyNodesChildren])⟩


theorem rsplitSep_some_spec :
    ∀ (cs pre suf : List Char), rsplitSep cs = some (pre, suf) →
      cs = pre ++ '_' :: '_' :: suf ∧ rsplitSep suf = none := by
  intro cs
  induction cs with
  | nil => intro pre suf h; simp [rsplitSep] at h
  | cons c rest ih =>
    intro pre suf h
    rcases hr : rsplitSep rest with _ | ⟨p2, s2⟩
    · simp only [rsplitSep, hr] at h
      split at h
      · rename_i tail
        injection h with h
        injection h with hpre hsuf
        subst hpre
        subst hsuf
        refine ⟨by simp, ?_⟩
        rcases hrt : rsplitSep tail with _ | ⟨pa, pb⟩
        · rfl
        · have hs : rsplitSep ('_' :: tail) = some ('_' :: pa, pb) := by
            simp [rsplitSep, hrt]
          rw [hs] at hr
          exact Option.noConfusion hr
      · simp at h
    · simp only [rsplitSep, hr] at h
      injection h with h
      injection h with hpre hsuf
      subst hpre
      subst hsuf
      obtain ⟨hres, hnone⟩ := ih p2 s2 hr
      exact ⟨by simp [hres], hnone⟩

theorem rsplitSep_none_spec :
    ∀ cs : List Char, rsplitSep cs = none →
      ∀ pre suf : List Char, cs ≠ pre ++ '_' :: '_' :: suf := by
  intro cs
  induction cs with
  | nil =>
    intro _ pre suf heq
    cases pre <;> simp at heq
  | cons c rest ih =>
    intro h pre suf heq
    rcases hr : rsplitSep rest with _ | ⟨p2, s2⟩
    · rcases pre with _ | ⟨p0, pre2⟩
      · simp only [List.nil_append, List.cons.injEq] at heq
        obtain ⟨hc, hrest⟩ := heq
        subst hc
        subst hrest
        rw [rsplitSep, hr] at h
        simp at h
      · simp only [List.cons_append, List.cons.injEq] at heq
        obtain ⟨hc, hrest⟩ := heq
        exact ih hr pre2 suf hrest
    · simp [rsplitSep, hr] at h

/-- C8: `_parse_lookup` is total and pure: the value passes through
unchanged; when the key contains the separator `__` the result is the
unique split at the LAST occurrence (field name, separator, operator
name concatenate back to the key, and the operator name contains no
further separator); when the key has no separator the field name is the
whole key and the operator is `exact`. No operator-name validation
happens here. -/
theorem c8_parse_lookup_split :
    ∀ (key : String) (v : PyVal),
      (parseLookup key v).value = v
      ∧ ((∃ a b : List Char, key.toList = a ++ '_' :: '_' :: b) →
          (parseLookup key v).fieldName.toList
              ++ '_' :: '_' :: (parseLookup key v).lookup.toList
            = key.toList
          ∧ ∀ a b : List Char,
              (parseLookup key v).lookup.toList ≠ a ++ '_' :: '_' :: b)
      ∧ ((∀ a b : List Char, key.toList ≠ a ++ '_' :: '_' :: b) →
          (parseLookup key v).fieldName = key
          ∧ (parseLookup key v).lookup = "exact") := by
  intro key v
  rcases hsplit : rsplitSep key.data with _ | ⟨pre, suf⟩
  · refine ⟨by simp [parseLookup, hsplit], ?_, ?_⟩
    · rintro ⟨a, b, hab⟩
      exact absurd hab (rsplitSep_none_spec _ hsplit a b)
    · intro _
      simp [parseLookup, hsplit]
  · obtain ⟨hcs, hsufnone⟩ := rsplitSep_some_spec _ _ _ hsplit
    have hpre : (String.mk pre).toList = pre := rfl
    have hsuf : (String.mk suf).toList = suf := rfl
    refine ⟨by simp [parseLookup, hsplit], ?_, ?_⟩
    · intro _
      constructor
      · simp only [parseLookup, String.toList, hsplit, hpre, hsuf]
        exact hcs.symm
      · intro a b hb
        simp only [parseLookup, String.toList, hsplit, hsuf] at hb
        exact rsplitSep_none_spec suf hsufnone a b hb
    · intro hno
      exact absurd hcs (hno pre suf)

/-- C8 witness: `score__gt` splits into field `score` and operator `gt`
with the value passed through; `status` has no separator and gets the
`exact` operator. -/
theorem c8_parse_lookup_split_witness :
    (parseLookup "score__gt" (.vInt 80)).value = .vInt 80
    ∧ (parseLookup "score__gt" (.vInt 80)).fieldName.toList
        ++ '_' :: '_' :: (parseLookup "score__gt" (.vInt 80)).lookup.toList
      = "score__gt".toList
    ∧ (parseLookup "status" (.vStr "Active")).fieldName = "status"
    ∧ (parseLookup "status" (.vStr "Active")).lookup = "exact" :=
  ⟨(c8_parse_lookup_split "score__gt" (.vInt 80)).1,
   ((c8_parse_lookup_split "score__gt" (.vInt 80)).2.1
      ⟨"score".toList, "gt".toList, rfl⟩).1,
   ((c8_parse_lookup_split "status" (.vStr "Active")).2.2
      (rsplitSep_none_spec _ rfl)).1,
   ((c8_parse_lookup_split "status" (.vStr "Active")).2.2
      (rsplitSep_none_spec _ rfl)).2⟩


/-- C9: when `exclude()` stores one kwargs dict with several keys,
`_build_frappe_query` lowers each key to a condition and negates it
individually, attaching one `where(~condition)` per key: the query's
where-clause list is the per-key negations, and conjoining the
where-clauses yields `NOT c1 AND NOT c2 AND ...` — not
`NOT (c1 AND c2 AND ...)`. -/
theorem c9_exclude_kwargs_negated_individually :
    ∀ (sch : String → Bool) (kvs : List (String × PyVal))
      (conds : List Cond) (rq : ReadQueryState),
      rq.filter_qs = [] → rq.filters = [] → rq.exclude_qs = [] →
      rq.exclude_filters = [kvs] →
      condsOfLeaf sch kvs = .ok conds →
      ∃ bq : BuiltQuery,
        buildFrappeQuery sch rq = .ok bq
        ∧ bq.whereClauses = conds.map Cond.not
        ∧ ∀ ltv likev row,
            evalWheres ltv likev row bq.whereClauses
              = conds.all (fun c => !evalCond ltv likev row c) := by
  intro sch kvs conds rq h1 h2 h3 h4 h5
  refine ⟨⟨conds.map Cond.not,
    rq.order_by_fields.map fun s =>
      if s.startsWith "-" then (s.drop 1, true) else (s, false),
    rq.limit_value⟩, ?_, rfl, ?_⟩
  · simp [buildFrappeQuery, h1, h2, h3, h4, legacyFilterConds,
      legacyExcludeConds, h5, Bind.bind, Except.bind, pure, Except.pure]
  · intro ltv likev row
    simp only [evalWheres, List.all_map]
    congr 1

theorem buildFrappeQuery_limitVal (sch : String → Bool)
    (s : ReadQueryState) (bq : BuiltQuery)
    (h : buildFrappeQuery sch s = .ok bq) :
    bq.limitVal = s.limit_value := by
  simp only [buildFrappeQuery, Bind.bind, Except.bind, pure] at h
  repeat' split at h
  all_goals first
    | exact Except.noConfusion h
    | (injection h with h2; rw [← h2])

/-- C9 witness: `exclude(status="Open", owner="guest")` produces the
where-clauses `[NOT status == Open, NOT owner == guest]`. -/
theorem c9_exclude_kwargs_negated_individually_witness :
    ∃ bq : BuiltQuery,
      buildFrappeQuery (fun _ => false)
          ⟨[], [[("status", .vStr "Open"), ("owner", .vStr "guest")]],
           [], [], [], none, [], []⟩ = .ok bq
      ∧ bq.whereClauses
          = ([Cond.eq "status" (.vStr "Open"),
              Cond.eq "owner" (.vStr "guest")]).map Cond.not
      ∧ ∀ ltv likev row,
          evalWheres ltv likev row bq.whereClauses
            = ([Cond.eq "status" (.vStr "Open"),
                Cond.eq "owner" (.vStr "guest")]).all
                (fun c => !evalCond ltv likev row c) :=
  c9_exclude_kwargs_negated_individually (fun _ => false)
    [("status", .vStr "Open"), ("owner", .vStr "guest")]
    [Cond.eq "status" (.vStr "Open"), Cond.eq "owner" (.vStr "guest")]
    ⟨[], [[("status", .vStr "Open"), ("owner", .vStr "guest")]],
     [], [], [], none, [], []⟩
    rfl rfl rfl rfl
    (by simp [condsOfLeaf, buildCondition, parseLookup, rsplitSep,
          Bind.bind, Except.bind])

/-- C10: `first()` permanently sets the descriptor's `limit_value` to 1
(a lasting in-place mutation: any later query built from the same
descriptor carries limit 1), and leaves every other descriptor field
unchanged. -/
theorem c10_first_limit_mutation :
    ∀ rq : ReadQueryState,
      (firstState rq).limit_value = some 1
      ∧ (firstState rq).filters = rq.filters
      ∧ (firstState rq).exclude_filters = rq.exclude_filters
      ∧ (firstState rq).filter_qs = rq.filter_qs
      ∧ (firstState rq).exclude_qs = rq.exclude_qs
      ∧ (firstState rq).order_by_fields = rq.order_by_fields
      ∧ (firstState rq).prefetch_fields = rq.prefetch_fields
      ∧ (firstState rq).select_related_fields = rq.select_related_fields
      ∧ (∀ (sch : String → Bool) (bq : BuiltQuery),
          buildFrappeQuery sch (firstState rq) = .ok bq →
          bq.limitVal = some 1) := by
  intro rq
  refine ⟨rfl, rfl, rfl, rfl, rfl, rfl, rfl, rfl, ?_⟩
  intro sch bq h
  exact buildFrappeQuery_limitVal sch (firstState rq) bq h

/-- C10 witness: a fresh descriptor run through `first()` has
`limit_value = 1` and its built query carries limit 1. -/
theorem c10_first_limit_mutation_witness :
    (firstState ⟨[], [], [], [], [], none, [], []⟩).limit_value = some 1
    ∧ ∃ bq : BuiltQuery,
        buildFrappeQuery (fun _ => false)
          (firstState ⟨[], [], [], [], [], none, [], []⟩) = .ok bq
        ∧ bq.limitVal = some 1 :=
  ⟨(c10_first_limit_mutation ⟨[], [], [], [], [], none, [], []⟩).1,
   ⟨⟨[], [], some 1⟩,
    by simp [buildFrappeQuery, firstState, legacyFilterConds,
         legacyExcludeConds, Bind.bind, Except.bind, pure, Except.pure],
    (c10_first_limit_mutation ⟨[], [], [], [], [], none, [], []⟩).2.2.2.2.2.2.2.2
      (fun _ => false) ⟨[], [], some 1⟩
      (by simp [buildFrappeQuery, firstState, legacyFilterConds,
           legacyExcludeConds, Bind.bind, Except.bind, pure, Except.pure])⟩⟩

end FrappePowertools
